import Mathlib

/-!
Shallow embedding of the SORT multi-object tracker implemented in
`src/backend/core/tracker.py` (classes `KalmanBoxTracker` and `Sort`).

Machine floating-point numbers are modelled by exact rationals `ℚ`.
`np.sqrt` is modelled by `ratSqrt`, the exact square root on rationals that
are squares (every scenario evaluated below only takes square roots of
perfect squares, where the two agree exactly); float `NaN` outcomes are
modelled explicitly, either by `Option` results or by dedicated predicates.
Python exceptions are modelled by `Except String`.

The tracker depends on two external libraries that are not part of the
repository: `filterpy` (the Kalman filter `self.kf`) and `scipy`
(`linear_sum_assignment`).  Their entry points are modelled from the spec,
as documented on `kfUpdateMean` and `SortTracker.associate`.
-/

namespace MSAI

/-- An axis-aligned box `[x1, y1, x2, y2]`, the 4-component rows that
`_convert_x_to_bbox` returns and `_iou` consumes. -/
structure Box where
  x1 : ℚ
  y1 : ℚ
  x2 : ℚ
  y2 : ℚ
deriving DecidableEq, Repr

/-- One detection row `[x1, y1, x2, y2, score]` as passed to `Sort.update`. -/
structure Det where
  x1 : ℚ
  y1 : ℚ
  x2 : ℚ
  y2 : ℚ
  score : ℚ
deriving DecidableEq, Repr

/-- The 4-dimensional observation vector `[x, y, s, r]` produced by
`KalmanBoxTracker._convert_bbox_to_z`. -/
structure Vec4 where
  a : ℚ
  b : ℚ
  c : ℚ
  d : ℚ
deriving DecidableEq, Repr

/-- The 7-dimensional Kalman mean `kf.x = [cx, cy, s, r, vcx, vcy, vs]`. -/
structure Vec7 where
  x0 : ℚ
  x1 : ℚ
  x2 : ℚ
  x3 : ℚ
  x4 : ℚ
  x5 : ℚ
  x6 : ℚ
deriving DecidableEq, Repr

/-- Model of `np.sqrt` on the exact rationals: `ratSqrt q` is the exact
square root whenever `q` is the square of a rational (the only inputs the
development ever evaluates it on); on other inputs it is some unspecified
rational and no theorem below depends on its value there. -/
def ratSqrt (q : ℚ) : ℚ :=
  Rat.sqrt q

/-- `KalmanBoxTracker._convert_bbox_to_z` (tracker.py lines 78-87):
`w = x2-x1`, `h = y2-y1`, centre `(x1+w/2, y1+h/2)`, scale `s = w*h`,
aspect `r = w/h`.  Rational division models float division; the `h = 0`
case (float `inf`/`nan`) is never reached by any theorem below. -/
def convert_bbox_to_z (x1 y1 x2 y2 : ℚ) : Vec4 :=
  let w := x2 - x1
  let h := y2 - y1
  ⟨x1 + w / 2, y1 + h / 2, w * h, w / h⟩

/-- `KalmanBoxTracker._convert_x_to_bbox` (tracker.py lines 89-99), on the
first four state components: `w = sqrt(s*r)`, `h = s/w`, box
`[cx-w/2, cy-h/2, cx+w/2, cy+h/2]`. -/
def convert_x_to_bbox (v : Vec4) : Box :=
  let w := ratSqrt (v.c * v.d)
  let h := v.c / w
  ⟨v.a - w / 2, v.b - h / 2, v.a + w / 2, v.b + h / 2⟩

/-- The first four components of the Kalman mean, i.e. `H @ x` for the
measurement matrix `H` of tracker.py lines 30-35. -/
def hMeas (v : Vec7) : Vec4 :=
  ⟨v.x0, v.x1, v.x2, v.x3⟩

/-- The box reported for a track state, `_convert_x_to_bbox(self.kf.x)`. -/
def stateBox (v : Vec7) : Box :=
  convert_x_to_bbox (hMeas v)

/-- `Sort._iou` (tracker.py lines 217-229).  Intersection width/height are
clamped at 0; the result is `wh / (area_test + area_gt - wh)`.  In the
source this is float arithmetic: when the denominator is exactly 0 the
division is `0/0 = NaN`, modelled here as `none` (the numerator is
necessarily 0 in that case, see `iou_wh_pos_denom_pos`). -/
def iou (t g : Box) : Option ℚ :=
  let w := max 0 (min t.x2 g.x2 - max t.x1 g.x1)
  let h := max 0 (min t.y2 g.y2 - max t.y1 g.y1)
  let wh := w * h
  let den := (t.x2 - t.x1) * (t.y2 - t.y1) + (g.x2 - g.x1) * (g.y2 - g.y1) - wh
  if den = 0 then none else some (wh / den)

/-- The IoU value used inside the association cost matrix.  Whenever the
denominator is nonzero this is exactly `iou`; the degenerate `NaN` entry
never occurs for the positive-area boxes handled in the theorems below. -/
def iouTotal (t g : Box) : ℚ :=
  (iou t g).getD 0

/-- Area of a box, `(x2-x1)*(y2-y1)`. -/
def boxArea (b : Box) : ℚ :=
  (b.x2 - b.x1) * (b.y2 - b.y1)

/-- Width of the intersection of two boxes, clamped at 0. -/
def interW (t g : Box) : ℚ :=
  max 0 (min t.x2 g.x2 - max t.x1 g.x1)

/-- Height of the intersection of two boxes, clamped at 0. -/
def interH (t g : Box) : ℚ :=
  max 0 (min t.y2 g.y2 - max t.y1 g.y1)

/-- The denominator of `Sort._iou`: `area t + area g - intersection`. -/
def iouDen (t g : Box) : ℚ :=
  boxArea t + boxArea g - interW t g * interH t g

theorem iou_eq_den (t g : Box) :
    iou t g = if iouDen t g = 0 then none
      else some (interW t g * interH t g / iouDen t g) := by
  simp [iou, iouDen, interW, interH, boxArea]

/-- If the intersection has positive width and height then both boxes have
positive extent in both axes. -/
theorem inter_pos_boxes_pos (t g : Box) (hw : 0 < interW t g)
    (hh : 0 < interH t g) :
    t.x1 < t.x2 ∧ t.y1 < t.y2 ∧ g.x1 < g.x2 ∧ g.y1 < g.y2 := by
  have hw' : max t.x1 g.x1 < min t.x2 g.x2 := by
    by_contra h
    push_neg at h
    have : interW t g = 0 := by
      unfold interW
      exact max_eq_left (by linarith)
    rw [this] at hw
    exact lt_irrefl 0 hw
  have hh' : max t.y1 g.y1 < min t.y2 g.y2 := by
    by_contra h
    push_neg at h
    have : interH t g = 0 := by
      unfold interH
      exact max_eq_left (by linarith)
    rw [this] at hh
    exact lt_irrefl 0 hh
  have h1 := le_max_left t.x1 g.x1
  have h2 := le_max_right t.x1 g.x1
  have h3 := min_le_left t.x2 g.x2
  have h4 := min_le_right t.x2 g.x2
  have h5 := le_max_left t.y1 g.y1
  have h6 := le_max_right t.y1 g.y1
  have h7 := min_le_left t.y2 g.y2
  have h8 := min_le_right t.y2 g.y2
  exact ⟨by linarith, by linarith, by linarith, by linarith⟩

/-- For identical boxes with positive width and height, `_iou` returns 1. -/
theorem iou_self_pos (b : Box) (hx : b.x1 < b.x2) (hy : b.y1 < b.y2) :
    iou b b = some 1 := by
  have h1 : interW b b = b.x2 - b.x1 := by
    simp [interW, max_eq_right (le_of_lt (sub_pos.mpr hx))]
  have h2 : interH b b = b.y2 - b.y1 := by
    simp [interH, max_eq_right (le_of_lt (sub_pos.mpr hy))]
  have hA : (0 : ℚ) < (b.x2 - b.x1) * (b.y2 - b.y1) :=
    mul_pos (sub_pos.mpr hx) (sub_pos.mpr hy)
  have hden : iouDen b b = (b.x2 - b.x1) * (b.y2 - b.y1) := by
    simp only [iouDen, boxArea, h1, h2]
    ring
  rw [iou_eq_den, hden, h1, h2, if_neg (ne_of_gt hA)]
  rw [div_self (ne_of_gt hA)]

/-- When the intersection is empty and the denominator nonzero, `_iou`
returns 0 (float `0/den`, and `-0.0` for a negative denominator, both of
which compare equal to 0). -/
theorem iou_inter_zero (t g : Box) (h0 : interW t g * interH t g = 0)
    (hden : iouDen t g ≠ 0) : iou t g = some 0 := by
  rw [iou_eq_den, if_neg hden, h0, zero_div]

/-- A box of nonpositive area forces an empty intersection. -/
theorem inter_zero_of_area_nonpos (t g : Box)
    (h : boxArea t ≤ 0 ∨ boxArea g ≤ 0) : interW t g * interH t g = 0 := by
  have hw0 : 0 ≤ interW t g := le_max_left 0 _
  have hh0 : 0 ≤ interH t g := le_max_left 0 _
  rcases eq_or_lt_of_le hw0 with hw | hw
  · rw [← hw, zero_mul]
  rcases eq_or_lt_of_le hh0 with hh | hh
  · rw [← hh, mul_zero]
  obtain ⟨a1, a2, a3, a4⟩ := inter_pos_boxes_pos t g hw hh
  have ht : 0 < boxArea t := mul_pos (sub_pos.mpr a1) (sub_pos.mpr a2)
  have hg : 0 < boxArea g := mul_pos (sub_pos.mpr a3) (sub_pos.mpr a4)
  rcases h with h | h <;> linarith

/-- When the denominator `area t + area g - inter` is exactly 0 the float
division in `_iou` is `0/0 = NaN`. -/
theorem iou_den_zero (t g : Box) (h : iouDen t g = 0) : iou t g = none := by
  rw [iou_eq_den, if_pos h]

/-- C5 counterexample: the claim states that `_iou` returns 0 for every
pair in which at least one box has zero or negative area, but for the pair
of zero-area boxes `[0,0,0,0]`, `[0,0,0,0]` the denominator is 0 and the
float division is `0/0 = NaN` (modelled as `none`), not 0. -/
theorem C5_counterexample :
    iou ⟨0, 0, 0, 0⟩ ⟨0, 0, 0, 0⟩ = none ∧
      iou ⟨0, 0, 0, 0⟩ ⟨0, 0, 0, 0⟩ ≠ some 0 := by
  have h : iou ⟨0, 0, 0, 0⟩ ⟨0, 0, 0, 0⟩ = none := by norm_num [iou]
  exact ⟨h, by simp [h]⟩

/-- C5 (amended): `_iou` returns intersection over
`area t + area g - intersection`; identical positive-area boxes give 1;
disjoint boxes give 0 provided the denominator is nonzero; a pair with a
zero/negative-area box gives 0 provided the denominator is nonzero; and
when the denominator is 0 the result is `NaN` (`0/0`), not 0. -/
theorem C5_iou_amended :
    (∀ b : Box, b.x1 < b.x2 → b.y1 < b.y2 → iou b b = some 1) ∧
    (∀ t g : Box, interW t g * interH t g = 0 → iouDen t g ≠ 0 →
      iou t g = some 0) ∧
    (∀ t g : Box, (boxArea t ≤ 0 ∨ boxArea g ≤ 0) → iouDen t g ≠ 0 →
      iou t g = some 0) ∧
    (∀ t g : Box, iouDen t g = 0 → iou t g = none) :=
  ⟨iou_self_pos,
   iou_inter_zero,
   fun t g h hd => iou_inter_zero t g (inter_zero_of_area_nonpos t g h) hd,
   iou_den_zero⟩

theorem C5_iou_amended_witness :
    iou ⟨0, 0, 4, 2⟩ ⟨0, 0, 4, 2⟩ = some 1 ∧
    iou ⟨0, 0, 1, 1⟩ ⟨5, 5, 6, 6⟩ = some 0 ∧
    iou ⟨0, 0, 0, 1⟩ ⟨0, 0, 2, 2⟩ = some 0 ∧
    iou ⟨0, 0, 0, 0⟩ ⟨1, 1, 1, 1⟩ = none :=
  ⟨C5_iou_amended.1 ⟨0, 0, 4, 2⟩ (by norm_num) (by norm_num),
   C5_iou_amended.2.1 ⟨0, 0, 1, 1⟩ ⟨5, 5, 6, 6⟩
     (by norm_num [interW, interH]) (by norm_num [iouDen, boxArea, interW, interH]),
   C5_iou_amended.2.2.1 ⟨0, 0, 0, 1⟩ ⟨0, 0, 2, 2⟩
     (by norm_num [boxArea]) (by norm_num [iouDen, boxArea, interW, interH]),
   C5_iou_amended.2.2.2 ⟨0, 0, 0, 0⟩ ⟨1, 1, 1, 1⟩
     (by norm_num [iouDen, boxArea, interW, interH])⟩

/-- C8: on boxes with positive width and height,
`_convert_x_to_bbox ∘ _convert_bbox_to_z` is the identity (in exact
arithmetic): `s*r = w²`, so `sqrt(s*r) = w` and `s/w = h`. -/
theorem C8_convert_roundtrip (x1 y1 x2 y2 : ℚ) (hx : x1 < x2) (hy : y1 < y2) :
    convert_x_to_bbox (convert_bbox_to_z x1 y1 x2 y2) = ⟨x1, y1, x2, y2⟩ := by
  have hw0 : (0 : ℚ) < x2 - x1 := by linarith
  have hh0 : (0 : ℚ) < y2 - y1 := by linarith
  have hhne : (y2 - y1) ≠ 0 := ne_of_gt hh0
  have hwne : (x2 - x1) ≠ 0 := ne_of_gt hw0
  have hsr : (x2 - x1) * (y2 - y1) * ((x2 - x1) / (y2 - y1))
      = (x2 - x1) * (x2 - x1) := by
    field_simp
    ring
  have hsqrt : ratSqrt ((x2 - x1) * (y2 - y1) * ((x2 - x1) / (y2 - y1)))
      = x2 - x1 := by
    rw [hsr, ratSqrt, Rat.sqrt_eq, abs_of_pos hw0]
  have hh' : (x2 - x1) * (y2 - y1) / (x2 - x1) = y2 - y1 := by
    field_simp
  simp only [convert_x_to_bbox, convert_bbox_to_z, hsqrt, hh']
  congr 1 <;> ring

theorem C8_convert_roundtrip_witness :
    convert_x_to_bbox (convert_bbox_to_z 0 0 4 2) = ⟨0, 0, 4, 2⟩ :=
  C8_convert_roundtrip 0 0 4 2 (by norm_num) (by norm_num)

def zero7 : Vec7 :=
  ⟨0, 0, 0, 0, 0, 0, 0⟩

def addV7 (a b : Vec7) : Vec7 :=
  ⟨a.x0 + b.x0, a.x1 + b.x1, a.x2 + b.x2, a.x3 + b.x3, a.x4 + b.x4,
   a.x5 + b.x5, a.x6 + b.x6⟩

def subV4 (a b : Vec4) : Vec4 :=
  ⟨a.a - b.a, a.b - b.b, a.c - b.c, a.d - b.d⟩

/-- The Kalman mean transition `x ← F @ x` for the constant-velocity
matrix `F` of tracker.py lines 19-27 (`filterpy`'s `predict` on the mean),
preceded by the scale-velocity guard of lines 64-65: if
`x[6] + x[2] <= 0` then `x[6]` is zeroed before predicting. -/
def kfPredict (v : Vec7) : Vec7 :=
  let v1 := if v.x6 + v.x2 ≤ 0 then { v with x6 := 0 } else v
  ⟨v1.x0 + v1.x4, v1.x1 + v1.x5, v1.x2 + v1.x6, v1.x3, v1.x4, v1.x5, v1.x6⟩

/-- Modelled from the spec: `filterpy`'s `KalmanFilter.update` (the body of
`self.kf.update` at tracker.py line 60 lives in the external `filterpy`
library, not in this repository).  Per the spec it is the standard Kalman
correction, "shifting the mean toward the observation": `x ← x + K(z - Hx)`
with `H` the measurement matrix of lines 30-35.  The gain `K` is produced
by filterpy's covariance recursion and is kept abstract as a parameter;
filterpy applies it linearly to the residual, so any admissible `K` maps
the zero residual to zero. -/
def kfUpdateMean (K : Vec4 → Vec7) (x : Vec7) (z : Vec4) : Vec7 :=
  addV7 x (K (subV4 z (hMeas x)))

/-- One `KalmanBoxTracker` (tracker.py lines 5-99).  Of `self.kf` only the
state mean `x` is kept: the covariance lives inside filterpy and
influences the tracker only through the Kalman gain abstracted in
`kfUpdateMean`. -/
structure Track where
  x : Vec7
  time_since_update : ℕ
  id : ℕ
  history : List Box
  hits : ℕ
  hit_streak : ℕ
  age : ℕ
deriving DecidableEq, Repr

/-- `KalmanBoxTracker.__init__` (tracker.py lines 9-52): the first four
mean components are `_convert_bbox_to_z(bbox)`, the velocities start at 0;
`id` is the current value of the class counter `KalmanBoxTracker.count`
(passed in as `count`; the caller increments it). -/
def createTracker (count : ℕ) (d : Det) : Track :=
  let z := convert_bbox_to_z d.x1 d.y1 d.x2 d.y2
  { x := ⟨z.a, z.b, z.c, z.d, 0, 0, 0⟩
    time_since_update := 0
    id := count
    history := []
    hits := 0
    hit_streak := 0
    age := 0 }

/-- `KalmanBoxTracker.update` (tracker.py lines 54-60). -/
def trackUpdate (K : Vec4 → Vec7) (t : Track) (d : Det) : Track :=
  { t with
    time_since_update := 0
    history := []
    hits := t.hits + 1
    hit_streak := t.hit_streak + 1
    x := kfUpdateMean K t.x (convert_bbox_to_z d.x1 d.y1 d.x2 d.y2) }

/-- `KalmanBoxTracker.predict` (tracker.py lines 62-72): advance the mean,
increment `age`, reset `hit_streak` to 0 only when `time_since_update > 0`
at call time, then increment `time_since_update` and append the predicted
box to `history`.  Returns the predicted box together with the mutated
tracker. -/
def trackPredict (t : Track) : Box × Track :=
  let x' := kfPredict t.x
  let b := stateBox x'
  (b,
   { t with
     x := x'
     age := t.age + 1
     hit_streak := if t.time_since_update > 0 then 0 else t.hit_streak
     time_since_update := t.time_since_update + 1
     history := t.history ++ [b] })

/-- The gain used to evaluate concrete runs.  In every concrete run below
each matched update has residual `z - Hx = 0`, and filterpy's gain acts
linearly on the residual, so the corrected mean equals `x` regardless of
the actual gain; `gain0` realises that value. -/
def gain0 : Vec4 → Vec7 :=
  fun _ => zero7

/-- The detection `[0, 0, 4, 2]` with score 1, used in concrete runs. -/
def detA : Det :=
  ⟨0, 0, 4, 2, 1⟩

/-- C9 counterexample: a track is created, matched once (predict then
update), then misses one frame (predict with no update).  The claim says
`hit_streak` is 0 the instant that prediction happens, but the code resets
the streak only when `time_since_update > 0` at call time, which is false
on the first missed frame: the streak is still 1. -/
theorem C9_counterexample :
    ((trackPredict (trackUpdate gain0
        ((trackPredict (createTracker 0 detA)).2) detA)).2).hit_streak = 1 ∧
    ((trackPredict (trackUpdate gain0
        ((trackPredict (createTracker 0 detA)).2) detA)).2).time_since_update
      = 1 := by
  constructor
  · simp [trackPredict, trackUpdate, createTracker]
  · simp [trackPredict, trackUpdate, createTracker]

/-- C9 (amended): `predict` resets `hit_streak` to 0 only when the track
has already missed at least one frame (`time_since_update > 0` at call
time).  Hence a streak survives the first missed frame, every second and
later consecutive predict without an intervening update sees the streak at
0, and it stays 0 until the next update. -/
theorem C9_hit_streak_amended :
    (∀ t : Track, 0 < t.time_since_update →
      ((trackPredict t).2).hit_streak = 0) ∧
    (∀ t : Track, ((trackPredict ((trackPredict t).2)).2).hit_streak = 0) ∧
    (∀ t : Track, t.hit_streak = 0 → ((trackPredict t).2).hit_streak = 0) := by
  refine ⟨fun t ht => ?_, fun t => ?_, fun t ht => ?_⟩
  · simp [trackPredict, ht]
  · simp [trackPredict]
  · simp [trackPredict, ht]

theorem C9_hit_streak_amended_witness :
    ((trackPredict ((trackPredict (createTracker 0 detA)).2)).2).hit_streak
        = 0 ∧
    ((trackPredict (createTracker 5 detA)).2).hit_streak = 0 :=
  ⟨C9_hit_streak_amended.1 ((trackPredict (createTracker 0 detA)).2)
      (by simp [trackPredict, createTracker]),
   C9_hit_streak_amended.2.2 (createTracker 5 detA) (by simp [createTracker])⟩

/-- Whether the predicted box `_convert_x_to_bbox(x)` contains a float
`NaN` (tracker.py line 136, `np.any(np.isnan(pos))`).  For finite state
means the float box is NaN exactly when `w = sqrt(s*r)` is NaN (`s*r < 0`)
or `h = s/w` is `0/0` (which happens exactly when `s = 0`, since then
`w = 0`); when `s ≠ 0` and `r = 0`, `h = s/0 = ±inf`, which is not NaN. -/
def predNan (v : Vec7) : Bool :=
  decide (v.x2 * v.x3 < 0 ∨ v.x2 = 0)

/-- Whether the matrix row `[pos, 0]` is dropped by
`np.ma.compress_rows(np.ma.masked_invalid(trks))` (tracker.py line 139),
which masks both NaN and ±inf: besides `predNan`, the case
`r = 0, s ≠ 0` yields `h = ±inf`. -/
def rowInvalid (v : Vec7) : Bool :=
  predNan v || decide (v.x3 = 0 ∧ ¬v.x2 = 0)

/-- The registry state of a `Sort` instance (tracker.py lines 105-116),
except for the class-level counter `KalmanBoxTracker.count`, which is
shared between instances and therefore threaded separately. -/
structure SortState where
  max_age : ℕ
  min_hits : ℕ
  iou_threshold : ℚ
  trackers : List Track
  frame_count : ℕ
deriving DecidableEq, Repr

/-- `Sort.__init__`. -/
def initState (maxAge minHits : ℕ) (thr : ℚ) : SortState :=
  ⟨maxAge, minHits, thr, [], 0⟩

def predictPairs (l : List Track) : List (Box × Track) :=
  l.map trackPredict

/-- `self.trackers` after the predict loop and the `to_del` pops of
tracker.py lines 130-141: trackers whose predicted box is NaN are
removed. -/
def keptTracks (l : List Track) : List Track :=
  ((predictPairs l).filter (fun p => !predNan p.2.x)).map Prod.snd

/-- The compressed prediction rows `trks` of line 139: predicted boxes of
trackers whose row holds neither NaN nor ±inf. -/
def predBoxes (l : List Track) : List Box :=
  ((predictPairs l).filter (fun p => !rowInvalid p.2.x)).map Prod.fst

/-- Out-of-range list reads below never occur in any evaluated run (the
source would raise IndexError); the defaults are arbitrary. -/
def dummyDet : Det :=
  ⟨0, 0, 0, 0, 0⟩

def dummyBox : Box :=
  ⟨0, 0, 0, 0⟩

def detBox (d : Det) : Box :=
  ⟨d.x1, d.y1, d.x2, d.y2⟩

/-- The entry `iou_matrix[d, t]` of tracker.py lines 182-186. -/
def iouEntry (dets : List Det) (trks : List Box) (d t : ℕ) : ℚ :=
  iouTotal (detBox (dets.getD d dummyDet)) (trks.getD t dummyBox)

/-- The negated matrix `-iou_matrix` passed to `_linear_assignment`
(line 189). -/
def costMatrix (dets : List Det) (trks : List Box) : List (List ℚ) :=
  (List.range dets.length).map (fun d =>
    (List.range trks.length).map (fun t => -(iouEntry dets trks d t)))

/-- Modelled from the spec: the matching step.  scipy's
`linear_sum_assignment` (line 236) lives outside the repository; per the
spec it returns an optimal assignment for the cost matrix.  The `solver`
parameter stands for it and yields the pair list `list(zip(x, y))` of
line 237; concrete runs instantiate it with `greedySolver` below, which on
those runs' matrices returns the same pairs. -/
def proposedPairs (solver : List (List ℚ) → List (ℕ × ℕ))
    (dets : List Det) (trks : List Box) : List (ℕ × ℕ) :=
  solver (costMatrix dets trks)

/-- Column `j` of `matched_indices`.  `np.array(list(zip(x, y)))` of an
empty list is a 1-dimensional empty array (shape `(0,)`), so
`matched_indices[:, j]` raises IndexError there; a nonempty list gives a
`(N, 2)` array whose column is well defined. -/
def colIdx (j : ℕ) (l : List (ℕ × ℕ)) : Except String (List ℕ) :=
  if l.isEmpty then .error "IndexError: too many indices for array"
  else .ok (l.map (fun p => if j = 0 then p.1 else p.2))

/-- The gate of tracker.py lines 201-208: each proposed pair below
`iou_threshold` contributes its indices to the unmatched lists, the rest
are kept as matches (in proposal order). -/
def gateSplit (iouM : ℕ → ℕ → ℚ) (thr : ℚ) :
    List (ℕ × ℕ) → List (ℕ × ℕ) × List ℕ × List ℕ
  | [] => ([], [], [])
  | m :: rest =>
    let g := gateSplit iouM thr rest
    if iouM m.1 m.2 < thr then (g.1, m.1 :: g.2.1, m.2 :: g.2.2)
    else (m :: g.1, g.2.1, g.2.2)

/-- `Sort._associate_detections_to_trackers` (tracker.py lines 177-215).
With no trackers it short-circuits (line 179).  Otherwise the unmatched
detection indices are collected first (the column access happens inside a
loop over detections, hence only when there is at least one detection),
then the unmatched tracker indices (the loop body always runs here since
`len(trackers) > 0`), then the gate splits the proposals. -/
def associate (solver : List (List ℚ) → List (ℕ × ℕ)) (thr : ℚ)
    (dets : List Det) (trks : List Box) :
    Except String (List (ℕ × ℕ) × List ℕ × List ℕ) :=
  if trks.length = 0 then
    .ok ([], List.range dets.length, [])
  else do
    let proposed := proposedPairs solver dets trks
    let ud0 ←
      if dets.length = 0 then pure []
      else do
        let c0 ← colIdx 0 proposed
        pure ((List.range dets.length).filter (fun d => decide (d ∉ c0)))
    let c1 ← colIdx 1 proposed
    let ut0 := (List.range trks.length).filter (fun t => decide (t ∉ c1))
    let g := gateSplit (iouEntry dets trks) thr proposed
    pure (g.1, ud0 ++ g.2.1, ut0 ++ g.2.2)

/-- Mutation of the `i`-th list element, `self.trackers[i].update(...)`. -/
def updAt : List Track → ℕ → (Track → Track) → List Track
  | [], _, _ => []
  | t :: ts, 0, f => f t :: ts
  | t :: ts, n + 1, f => t :: updAt ts n f

/-- Lines 148-150: each matched pair `m` updates the tracker at index
`m[1]` with the detection at index `m[0]`. -/
def applyMatched (K : Vec4 → Vec7) (dets : List Det)
    (matched : List (ℕ × ℕ)) (l : List Track) : List Track :=
  matched.foldl
    (fun acc m => updAt acc m.2 (fun t => trackUpdate K t (dets.getD m.1 dummyDet)))
    l

/-- Lines 152-155: one new tracker per unmatched detection index,
consuming the class counter left to right. -/
def createFold (dets : List Det) (ud : List ℕ) (start : List Track × ℕ) :
    List Track × ℕ :=
  ud.foldl
    (fun acc i => (acc.1 ++ [createTracker acc.2 (dets.getD i dummyDet)], acc.2 + 1))
    start

/-- Lines 157-164: report `(get_state(), id + 1)` for every tracker with
`time_since_update < 1` and (`hit_streak >= min_hits` or
`frame_count <= min_hits`). -/
def reportRows (l : List Track) (fc minHits : ℕ) : List (Box × ℕ) :=
  l.filterMap (fun t =>
    if t.time_since_update < 1 ∧ (minHits ≤ t.hit_streak ∨ fc ≤ minHits)
    then some (stateBox t.x, t.id + 1) else none)

/-- Lines 166-171: remove every tracker with
`time_since_update > max_age`. -/
def pruneOld (maxAge : ℕ) (l : List Track) : List Track :=
  l.filter (fun t => decide (t.time_since_update ≤ maxAge))

/-- `self.trackers` as it stands at line 158 (after predict, to_del,
association, matched updates and creations), with the advanced class
counter. -/
def liveListE (K : Vec4 → Vec7) (solver : List (List ℚ) → List (ℕ × ℕ))
    (count : ℕ) (st : SortState) (dets : List Det) :
    Except String (List Track × ℕ) := do
  let (matched, ud, _ut) ←
    associate solver st.iou_threshold dets (predBoxes st.trackers)
  pure (createFold dets ud (applyMatched K dets matched (keptTracks st.trackers), count))

/-- `Sort.update` (tracker.py lines 118-175): one frame.  `count` is the
shared class counter `KalmanBoxTracker.count` before the call; the third
component of the result is its value after the call. -/
def SortTracker.update (K : Vec4 → Vec7)
    (solver : List (List ℚ) → List (ℕ × ℕ)) (count : ℕ) (st : SortState)
    (dets : List Det) :
    Except String (List (Box × ℕ) × SortState × ℕ) := do
  let (l, count') ← liveListE K solver count st dets
  pure (reportRows l (st.frame_count + 1) st.min_hits,
        { st with trackers := pruneOld st.max_age l
                  frame_count := st.frame_count + 1 },
        count')

/-- One scan of tracker.py lines 245-254 for the smallest remaining cost
entry: row-major order, strict improvement, so the earliest minimum
wins. -/
def greedyPick (cost : ℕ → ℕ → ℚ) (n m : ℕ) (usedR usedC : List ℕ) :
    Option (ℕ × ℕ) :=
  (((List.range n).map (fun i =>
      if i ∈ usedR then []
      else (List.range m).filterMap (fun j =>
        if j ∈ usedC then none else some (i, j)))).flatten).foldl
    (fun best p =>
      match best with
      | none => some p
      | some q => if cost p.1 p.2 < cost q.1 q.2 then some p else some q)
    none

def greedyLoop (cost : ℕ → ℕ → ℚ) (n m : ℕ) :
    ℕ → List ℕ → List ℕ → List (ℕ × ℕ)
  | 0, _, _ => []
  | fuel + 1, usedR, usedC =>
    match greedyPick cost n m usedR usedC with
    | none => []
    | some p => p :: greedyLoop cost n m fuel (p.1 :: usedR) (p.2 :: usedC)

/-- The greedy fallback branch of `_linear_assignment` (tracker.py lines
238-260), translated directly.  Concrete runs use it as the `solver`
instance; on every matrix those runs produce (shapes `0×k`, `1×1`) its
output coincides with scipy's optimal assignment. -/
def greedySolver (cost : List (List ℚ)) : List (ℕ × ℕ) :=
  greedyLoop (fun i j => (cost.getD i []).getD j 0) cost.length
    (cost.headD []).length (min cost.length (cost.headD []).length) [] []

/-- Iterated `Sort.update`, one call per frame, threading the shared class
counter and collecting the per-frame outputs. -/
def runFrames (K : Vec4 → Vec7) (solver : List (List ℚ) → List (ℕ × ℕ)) :
    ℕ → SortState → List (List Det) →
    Except String (List (List (Box × ℕ)) × SortState × ℕ)
  | c, st, [] => pure ([], st, c)
  | c, st, d :: ds => do
    let (out, st', c') ← SortTracker.update K solver c st d
    let (outs, st'', c'') ← runFrames K solver c' st' ds
    pure (out :: outs, st'', c'')

theorem ratSqrt_16 : ratSqrt 16 = 4 := by
  rw [ratSqrt, show (16 : ℚ) = 4 * 4 by norm_num, Rat.sqrt_eq]
  norm_num

/-- The reported box of the state seeded from `detA` (or any translate of
that box shape: `s = 8`, `r = 2`, so `w = √16 = 4`, `h = 2`). -/
theorem stateBox_A : stateBox ⟨2, 1, 8, 2, 0, 0, 0⟩ = ⟨0, 0, 4, 2⟩ := by
  norm_num [stateBox, convert_x_to_bbox, hMeas, ratSqrt_16]

/-- The internal tracker a fresh registry creates from `detA`. -/
def track0 : Track :=
  ⟨⟨2, 1, 8, 2, 0, 0, 0⟩, 0, 0, [], 0, 0, 0⟩

/-- The default-configured registry after one frame `[detA]`. -/
def st1 : SortState :=
  ⟨30, 3, 3 / 10, [track0], 1⟩

/-- Frame 1 of a fresh default registry (`max_age 30`, `min_hits 3`,
`iou_threshold 0.3`, the values used by `detector.py`) on the single
detection `detA`: the new track is created with internal id 0 and reported
as id 1 thanks to the bootstrap window `frame_count <= min_hits`. -/
theorem updA1 :
    SortTracker.update gain0 greedySolver 0 (initState 30 3 (3 / 10)) [detA]
      = .ok ([(⟨0, 0, 4, 2⟩, 1)], st1, 1) := by
  simp [SortTracker.update, liveListE, associate, predBoxes, predictPairs,
    keptTracks, createFold, applyMatched, reportRows, pruneOld, initState,
    detA, createTracker, convert_bbox_to_z, stateBox_A, bind, Except.bind,
    pure, Except.pure, List.range_succ, List.getD, st1, track0]
  norm_num [stateBox_A]

/-- Membership in the report stage (tracker.py lines 157-164). -/
theorem mem_reportRows (l : List Track) (fc mh : ℕ) (row : Box × ℕ) :
    row ∈ reportRows l fc mh ↔
      ∃ t ∈ l, t.time_since_update < 1 ∧ (mh ≤ t.hit_streak ∨ fc ≤ mh) ∧
        row = (stateBox t.x, t.id + 1) := by
  simp only [reportRows, List.mem_filterMap]
  constructor
  · rintro ⟨t, ht, hf⟩
    by_cases hc : t.time_since_update < 1 ∧ (mh ≤ t.hit_streak ∨ fc ≤ mh)
    · rw [if_pos hc] at hf
      injection hf with hf
      exact ⟨t, ht, hc.1, hc.2, hf.symm⟩
    · rw [if_neg hc] at hf
      cases hf
  · rintro ⟨t, ht, h1, h2, rfl⟩
    exact ⟨t, ht, by rw [if_pos ⟨h1, h2⟩]⟩

/-- A successful `Sort.update` decomposed into its phases. -/
theorem update_parts {K : Vec4 → Vec7} {solver : List (List ℚ) → List (ℕ × ℕ)}
    {c : ℕ} {st : SortState} {dets : List Det} {out : List (Box × ℕ)}
    {st' : SortState} {c' : ℕ}
    (h : SortTracker.update K solver c st dets = .ok (out, st', c')) :
    ∃ l, liveListE K solver c st dets = .ok (l, c') ∧
      out = reportRows l (st.frame_count + 1) st.min_hits ∧
      st' = { st with trackers := pruneOld st.max_age l
                      frame_count := st.frame_count + 1 } := by
  cases hE : liveListE K solver c st dets with
  | error e =>
    rw [SortTracker.update, hE] at h
    simp [Except.bind] at h
  | ok p =>
    obtain ⟨l, c2⟩ := p
    rw [SortTracker.update, hE] at h
    simp only [bind, Except.bind, pure, Except.pure, Except.ok.injEq,
      Prod.mk.injEq] at h
    obtain ⟨h1, h2, h3⟩ := h
    subst h3
    exact ⟨l, rfl, h1.symm, h2.symm⟩

/-- A successful `liveListE` decomposed: association succeeded and the
live list is matched-updates followed by fresh creations. -/
theorem liveListE_parts {K : Vec4 → Vec7} {solver : List (List ℚ) → List (ℕ × ℕ)}
    {c : ℕ} {st : SortState} {dets : List Det} {l : List Track} {c' : ℕ}
    (h : liveListE K solver c st dets = .ok (l, c')) :
    ∃ matched ud ut,
      associate solver st.iou_threshold dets (predBoxes st.trackers)
        = .ok (matched, ud, ut) ∧
      (l, c') = createFold dets ud
        (applyMatched K dets matched (keptTracks st.trackers), c) := by
  cases hA : associate solver st.iou_threshold dets (predBoxes st.trackers) with
  | error e =>
    rw [liveListE, hA] at h
    simp [Except.bind] at h
  | ok p =>
    obtain ⟨m, ud, ut⟩ := p
    rw [liveListE, hA] at h
    simp only [bind, Except.bind, pure, Except.pure, Except.ok.injEq] at h
    exact ⟨m, ud, ut, rfl, h.symm⟩

/-- C2: a row is in the list returned by `Sort.update` exactly when its
track (in the post-association, pre-prune registry) satisfies
`time_since_update < 1` and (`hit_streak >= min_hits` or
`frame_count <= min_hits`); concretely, with `min_hits = 3` a fresh
registry reports a single frame-1 detection in frame 1 (bootstrap window)
although its `hit_streak` is 0. -/
theorem C2_report_condition :
    (∀ (l : List Track) (fc mh : ℕ) (row : Box × ℕ),
        row ∈ reportRows l fc mh ↔
          ∃ t ∈ l, t.time_since_update < 1 ∧
            (mh ≤ t.hit_streak ∨ fc ≤ mh) ∧
            row = (stateBox t.x, t.id + 1)) ∧
    (∀ (K : Vec4 → Vec7) (solver : List (List ℚ) → List (ℕ × ℕ))
        (c : ℕ) (st : SortState) (dets : List Det)
        (out : List (Box × ℕ)) (st' : SortState) (c' : ℕ),
        SortTracker.update K solver c st dets = .ok (out, st', c') →
        ∃ l, liveListE K solver c st dets = .ok (l, c') ∧
          out = reportRows l (st.frame_count + 1) st.min_hits) ∧
    SortTracker.update gain0 greedySolver 0 (initState 30 3 (3 / 10)) [detA]
      = .ok ([(⟨0, 0, 4, 2⟩, 1)], st1, 1) := by
  refine ⟨mem_reportRows, ?_, updA1⟩
  intro K solver c st dets out st' c' h
  obtain ⟨l, hl, hout, _⟩ := update_parts h
  exact ⟨l, hl, hout⟩

theorem C2_report_condition_witness :
    (⟨0, 0, 4, 2⟩, 1) ∈ reportRows [track0] 1 3 ∧
    ∃ l, liveListE gain0 greedySolver 0 (initState 30 3 (3 / 10)) [detA]
        = .ok (l, 1) ∧
      [((⟨0, 0, 4, 2⟩ : Box), 1)] = reportRows l 1 3 :=
  ⟨(C2_report_condition.1 [track0] 1 3 (⟨0, 0, 4, 2⟩, 1)).mpr
      ⟨track0, by simp, by simp [track0], Or.inr (by norm_num),
        by rw [show track0.x = ⟨2, 1, 8, 2, 0, 0, 0⟩ from rfl, stateBox_A]
           simp [track0]⟩,
   C2_report_condition.2.1 gain0 greedySolver 0 (initState 30 3 (3 / 10))
      [detA] _ _ 1 C2_report_condition.2.2⟩

/-- C10: every row returned by `Sort.update` is `(get_state(), id + 1)` of
a live internal tracker, so external ids are the internal ids plus one;
and internal ids are assigned from the counter, which starts at 0. -/
theorem C10_external_ids :
    (∀ (K : Vec4 → Vec7) (solver : List (List ℚ) → List (ℕ × ℕ))
        (c : ℕ) (st : SortState) (dets : List Det)
        (out : List (Box × ℕ)) (st' : SortState) (c' : ℕ),
        SortTracker.update K solver c st dets = .ok (out, st', c') →
        ∃ l, liveListE K solver c st dets = .ok (l, c') ∧
          ∀ row ∈ out, ∃ t ∈ l, row = (stateBox t.x, t.id + 1)) ∧
    (∀ (c : ℕ) (d : Det), (createTracker c d).id = c) := by
  constructor
  · intro K solver c st dets out st' c' h
    obtain ⟨l, hl, hout, _⟩ := update_parts h
    refine ⟨l, hl, fun row hrow => ?_⟩
    rw [hout] at hrow
    obtain ⟨t, ht, _, _, h3⟩ := (mem_reportRows l _ _ row).mp hrow
    exact ⟨t, ht, h3⟩
  · intro c d
    rfl

theorem C10_external_ids_witness :
    ∃ l, liveListE gain0 greedySolver 0 (initState 30 3 (3 / 10)) [detA]
        = .ok (l, 1) ∧
      ∀ row ∈ [((⟨0, 0, 4, 2⟩ : Box), 1)], ∃ t ∈ l, row = (stateBox t.x, t.id + 1) :=
  C10_external_ids.1 gain0 greedySolver 0 (initState 30 3 (3 / 10)) [detA]
    _ _ 1 updA1

/-- The kept matches of the gate are exactly the proposals that pass the
threshold, in proposal order. -/
theorem gateSplit_fst (iouM : ℕ → ℕ → ℚ) (thr : ℚ) (proposed : List (ℕ × ℕ)) :
    (gateSplit iouM thr proposed).1
      = proposed.filter (fun p => !decide (iouM p.1 p.2 < thr)) := by
  induction proposed with
  | nil => rfl
  | cons m rest ih =>
    by_cases h : iouM m.1 m.2 < thr <;>
      simp [gateSplit, h, ih, List.filter_cons]

/-- Every rejected proposal contributes its detection index and its
tracker index to the gate's unmatched lists. -/
theorem gateSplit_rejected (iouM : ℕ → ℕ → ℚ) (thr : ℚ)
    (proposed : List (ℕ × ℕ)) :
    ∀ p ∈ proposed, iouM p.1 p.2 < thr →
      p.1 ∈ (gateSplit iouM thr proposed).2.1 ∧
      p.2 ∈ (gateSplit iouM thr proposed).2.2 := by
  induction proposed with
  | nil => simp
  | cons m rest ih =>
    intro p hp hlt
    rcases List.mem_cons.mp hp with hpm | hp'
    · subst hpm
      simp [gateSplit, hlt]
    · have hrec := ih p hp' hlt
      by_cases h : iouM m.1 m.2 < thr <;>
        simp [gateSplit, h, hrec.1, hrec.2]

/-- A successful association (with at least one tracker row) decomposed:
the matches are the gate's first component and the gate's rejected indices
all land in the returned unmatched lists. -/
theorem associate_parts {solver : List (List ℚ) → List (ℕ × ℕ)} {thr : ℚ}
    {dets : List Det} {trks : List Box} {m : List (ℕ × ℕ)} {ud ut : List ℕ}
    (hne : trks.length ≠ 0)
    (h : associate solver thr dets trks = .ok (m, ud, ut)) :
    m = (gateSplit (iouEntry dets trks) thr (proposedPairs solver dets trks)).1 ∧
    (∀ i ∈ (gateSplit (iouEntry dets trks) thr
        (proposedPairs solver dets trks)).2.1, i ∈ ud) ∧
    (∀ i ∈ (gateSplit (iouEntry dets trks) thr
        (proposedPairs solver dets trks)).2.2, i ∈ ut) := by
  rw [associate, if_neg hne] at h
  by_cases hP : (proposedPairs solver dets trks).isEmpty
  · by_cases hd : dets.length = 0 <;>
      simp [hd, colIdx, hP, bind, Except.bind, pure, Except.pure] at h
  · by_cases hd : dets.length = 0
    · simp only [hd, if_pos, colIdx, hP, Bool.false_eq_true, if_false,
        bind, Except.bind, pure, Except.pure, if_true, Except.ok.injEq,
        Prod.mk.injEq] at h
      obtain ⟨h1, h2, h3⟩ := h
      subst h1 h2 h3
      exact ⟨rfl, fun i hi => by simp [hi], fun i hi => by simp [hi]⟩
    · simp only [hd, colIdx, hP, Bool.false_eq_true, if_false,
        bind, Except.bind, pure, Except.pure, Except.ok.injEq,
        Prod.mk.injEq] at h
      obtain ⟨h1, h2, h3⟩ := h
      subst h1 h2 h3
      exact ⟨rfl, fun i hi => by simp [hi], fun i hi => by simp [hi]⟩

/-- C7: for every cost matrix and every assignment proposed by the
matching step, the returned matches are exactly the proposed pairs whose
IoU is at or above `iou_threshold`, and each rejected pair's detection
index appears in `unmatched_detections` and its tracker index in
`unmatched_trackers`. -/
theorem C7_iou_gate {solver : List (List ℚ) → List (ℕ × ℕ)} {thr : ℚ}
    {dets : List Det} {trks : List Box} {m : List (ℕ × ℕ)} {ud ut : List ℕ}
    (hne : trks.length ≠ 0)
    (h : associate solver thr dets trks = .ok (m, ud, ut)) :
    m = (proposedPairs solver dets trks).filter
        (fun p => !decide (iouEntry dets trks p.1 p.2 < thr)) ∧
    ∀ p ∈ proposedPairs solver dets trks,
      iouEntry dets trks p.1 p.2 < thr → p.1 ∈ ud ∧ p.2 ∈ ut := by
  obtain ⟨hm, hud, hut⟩ := associate_parts hne h
  refine ⟨hm.trans (gateSplit_fst _ _ _), fun p hp hlt => ?_⟩
  have hr := gateSplit_rejected (iouEntry dets trks) thr
    (proposedPairs solver dets trks) p hp hlt
  exact ⟨hud _ hr.1, hut _ hr.2⟩

/-- The association of one detection `detA` against the coinciding
predicted box: proposed and kept as a match (IoU `1 ≥ 0.3`). -/
theorem assocA1 :
    associate greedySolver (3 / 10) [detA] [⟨0, 0, 4, 2⟩]
      = .ok ([(0, 0)], [], []) := by
  norm_num [associate, proposedPairs, costMatrix, iouEntry, iouTotal, iou,
    detBox, detA, greedySolver, greedyLoop, greedyPick, colIdx, gateSplit,
    bind, Except.bind, pure, Except.pure, List.range_succ, List.getD,
    dummyDet, dummyBox, List.filterMap_cons, List.filterMap_nil,
    List.foldl_cons, List.foldl_nil]

theorem C7_iou_gate_witness :
    [((0 : ℕ), (0 : ℕ))]
        = (proposedPairs greedySolver [detA] [⟨0, 0, 4, 2⟩]).filter
            (fun p => !decide (iouEntry [detA] [⟨0, 0, 4, 2⟩] p.1 p.2 < 3 / 10)) ∧
    ∀ p ∈ proposedPairs greedySolver [detA] [⟨0, 0, 4, 2⟩],
      iouEntry [detA] [⟨0, 0, 4, 2⟩] p.1 p.2 < 3 / 10 →
        p.1 ∈ ([] : List ℕ) ∧ p.2 ∈ ([] : List ℕ) :=
  C7_iou_gate (by norm_num) assocA1

/-- C6: claimed, `update([])` on a registry with live tracks does not
raise.  In the code, with at least one live track and zero detections the
scipy branch of `_linear_assignment` (the live branch: `detector.py`
passes `np.empty((0, 5))` and scipy is installed as a dependency of
filterpy) returns `np.array(list(zip([], []))) = np.array([])` of shape
`(0,)`, and the `unmatched_trackers` loop evaluates
`matched_indices[:, 1]`, raising `IndexError: too many indices for
array`.  Evaluated at the registry `st1` holding one live track. -/
theorem C6_empty_update_raises :
    SortTracker.update gain0 greedySolver 1 st1 []
      = .error "IndexError: too many indices for array" := by
  norm_num [SortTracker.update, liveListE, associate, predBoxes,
    predictPairs, keptTracks, trackPredict, kfPredict, predNan, rowInvalid,
    st1, track0, costMatrix, proposedPairs, greedySolver, greedyLoop,
    greedyPick, colIdx, bind, Except.bind, pure, Except.pure,
    List.filterMap_cons, List.filterMap_nil, List.foldl_cons, List.foldl_nil]

def idsOf (l : List Track) : List ℕ :=
  l.map (fun t => t.id)

/-- The registry id invariant: live ids strictly increase along the
tracker list (trackers are only ever appended with fresh ids) and all lie
below the class counter. -/
def RegInv (c : ℕ) (l : List Track) : Prop :=
  List.Pairwise (· < ·) (idsOf l) ∧ ∀ t ∈ l, t.id < c

theorem trackPredict_id (t : Track) : ((trackPredict t).2).id = t.id :=
  rfl

theorem idsOf_cons (t : Track) (l : List Track) :
    idsOf (t :: l) = t.id :: idsOf l :=
  rfl

theorem idsOf_append (l l' : List Track) :
    idsOf (l ++ l') = idsOf l ++ idsOf l' := by
  simp [idsOf]

/-- The predict/`to_del` phase only removes trackers and keeps ids. -/
theorem idsOf_keptTracks (l : List Track) :
    List.Sublist (idsOf (keptTracks l)) (idsOf l) := by
  induction l with
  | nil => exact List.Sublist.refl _
  | cons t ts ih =>
    cases hp : predNan ((trackPredict t).2).x
    · have h2 : keptTracks (t :: ts) = (trackPredict t).2 :: keptTracks ts := by
        simp [keptTracks, predictPairs, hp]
      rw [h2, idsOf_cons, idsOf_cons, trackPredict_id]
      exact ih.cons₂ t.id
    · have h2 : keptTracks (t :: ts) = keptTracks ts := by
        simp [keptTracks, predictPairs, hp]
      rw [h2, idsOf_cons]
      exact ih.cons t.id

theorem idsOf_updAt (l : List Track) (f : Track → Track)
    (hf : ∀ t, (f t).id = t.id) :
    ∀ i, idsOf (updAt l i f) = idsOf l := by
  induction l with
  | nil => intro i; rfl
  | cons t ts ih =>
    intro i
    cases i with
    | zero => simp [updAt, idsOf_cons, hf]
    | succ n => simp [updAt, idsOf_cons, ih n]

/-- Matched updates never change ids. -/
theorem idsOf_applyMatched (K : Vec4 → Vec7) (dets : List Det)
    (ms : List (ℕ × ℕ)) : ∀ l, idsOf (applyMatched K dets ms l) = idsOf l := by
  induction ms with
  | nil => intro l; rfl
  | cons m rest ih =>
    intro l
    show idsOf (applyMatched K dets rest
      (updAt l m.2 (fun t => trackUpdate K t (dets.getD m.1 dummyDet)))) = idsOf l
    rw [ih, idsOf_updAt]
    intro t
    rfl

theorem createFold_snd (dets : List Det) :
    ∀ (ud : List ℕ) (l : List Track) (c : ℕ),
      (createFold dets ud (l, c)).2 = c + ud.length := by
  intro ud
  induction ud with
  | nil => intro l c; simp [createFold]
  | cons i rest ih =>
    intro l c
    show (createFold dets rest
      (l ++ [createTracker c (dets.getD i dummyDet)], c + 1)).2 = _
    rw [ih, List.length_cons]
    omega

/-- The creation phase appends the consecutive fresh ids
`c, c+1, …, c+|ud|-1`. -/
theorem idsOf_createFold (dets : List Det) :
    ∀ (ud : List ℕ) (l : List Track) (c : ℕ),
      idsOf (createFold dets ud (l, c)).1 = idsOf l ++ List.range' c ud.length := by
  intro ud
  induction ud with
  | nil => intro l c; simp [createFold, idsOf]
  | cons i rest ih =>
    intro l c
    show idsOf (createFold dets rest
      (l ++ [createTracker c (dets.getD i dummyDet)], c + 1)).1 = _
    rw [ih, idsOf_append]
    simp [idsOf, createTracker, List.range'_succ, List.append_assoc]

theorem idsOf_pruneOld (ma : ℕ) (l : List Track) :
    List.Sublist (idsOf (pruneOld ma l)) (idsOf l) :=
  List.Sublist.map _ (List.filter_sublist l)

/-- Ids of a successful `liveListE`: a sub-collection of the previous live
ids followed by the block of freshly assigned ids `[c, c')`. -/
theorem liveListE_ids {K : Vec4 → Vec7} {solver : List (List ℚ) → List (ℕ × ℕ)}
    {c : ℕ} {st : SortState} {dets : List Det} {l : List Track} {c' : ℕ}
    (h : liveListE K solver c st dets = .ok (l, c')) :
    c ≤ c' ∧ ∃ A, List.Sublist A (idsOf st.trackers) ∧
      idsOf l = A ++ List.range' c (c' - c) := by
  obtain ⟨m, ud, ut, _, hcf⟩ := liveListE_parts h
  have h1 : l = (createFold dets ud
      (applyMatched K dets m (keptTracks st.trackers), c)).1 :=
    congrArg Prod.fst hcf
  have h2 : c' = (createFold dets ud
      (applyMatched K dets m (keptTracks st.trackers), c)).2 :=
    congrArg Prod.snd hcf
  rw [createFold_snd] at h2
  constructor
  · omega
  refine ⟨idsOf (keptTracks st.trackers), idsOf_keptTracks _, ?_⟩
  have hn : c' - c = ud.length := by omega
  rw [h1, idsOf_createFold, idsOf_applyMatched, hn]

/-- Master id lemma for one `Sort.update` step: the counter only grows,
the id invariant is preserved, every live id is an old live id or a fresh
one from `[c, c')`, and every reported row's external id is an internal
live id (old or fresh) plus one. -/
theorem update_ids_master {K : Vec4 → Vec7} {solver : List (List ℚ) → List (ℕ × ℕ)}
    {c : ℕ} {st : SortState} {dets : List Det} {out : List (Box × ℕ)}
    {st' : SortState} {c' : ℕ}
    (h : SortTracker.update K solver c st dets = .ok (out, st', c'))
    (hInv : RegInv c st.trackers) :
    c ≤ c' ∧ RegInv c' st'.trackers ∧
    (∀ i ∈ idsOf st'.trackers, i ∈ idsOf st.trackers ∨ (c ≤ i ∧ i < c')) ∧
    (∀ row ∈ out, ∃ i, row.2 = i + 1 ∧
      (i ∈ idsOf st.trackers ∨ (c ≤ i ∧ i < c'))) := by
  obtain ⟨l, hl, hout, hst'⟩ := update_parts h
  obtain ⟨hcc, A, hA, hids⟩ := liveListE_ids hl
  have hmem_l : ∀ i ∈ idsOf l, i ∈ idsOf st.trackers ∨ (c ≤ i ∧ i < c') := by
    intro i hi
    rw [hids] at hi
    rcases List.mem_append.mp hi with hi | hi
    · exact Or.inl (hA.subset hi)
    · rcases List.mem_range'_1.mp hi with ⟨h1, h2⟩
      exact Or.inr ⟨h1, by omega⟩
  have hInv_l : RegInv c' l := by
    constructor
    · rw [hids]
      rw [List.pairwise_append]
      refine ⟨List.Pairwise.sublist hA hInv.1, List.pairwise_lt_range' c (c' - c), ?_⟩
      intro a ha b hb
      have ha' : a < c := by
        obtain ⟨t, ht, rfl⟩ := List.mem_map.mp (hA.subset ha)
        exact hInv.2 t ht
      have hb' : c ≤ b := (List.mem_range'_1.mp hb).1
      omega
    · intro t ht
      have : t.id ∈ idsOf l := List.mem_map_of_mem _ ht
      rcases hmem_l _ this with hin | ⟨_, h2⟩
      · obtain ⟨u, hu, he⟩ := List.mem_map.mp hin
        exact he ▸ lt_of_lt_of_le (hInv.2 u hu) hcc
      · exact h2
  have hsub : List.Sublist (idsOf st'.trackers) (idsOf l) := by
    rw [hst']
    exact idsOf_pruneOld _ _
  refine ⟨hcc, ⟨List.Pairwise.sublist hsub hInv_l.1, ?_⟩, ?_, ?_⟩
  · intro t ht
    have ht' : t ∈ pruneOld st.max_age l := by
      rw [hst'] at ht
      exact ht
    exact hInv_l.2 t (List.filter_sublist l |>.subset ht')
  · intro i hi
    exact hmem_l i (hsub.subset hi)
  · intro row hrow
    rw [hout] at hrow
    obtain ⟨t, ht, _, _, hre⟩ := (mem_reportRows l _ _ row).mp hrow
    refine ⟨t.id, by rw [hre], hmem_l _ (List.mem_map_of_mem _ ht)⟩

/-- C1: within a registry, live tracker ids are pairwise distinct; the id
invariant (ids strictly increasing along the list, all below the shared
counter) is preserved by every `Sort.update`; the counter never decreases;
and every track that is new this frame (its id was not live before)
received an id strictly larger than every previously live id, drawn from
the fresh block `[c, c')` — so ids of pruned tracks (which also lie below
`c`) are never assigned again. -/
theorem C1_track_ids {K : Vec4 → Vec7} {solver : List (List ℚ) → List (ℕ × ℕ)}
    {c : ℕ} {st : SortState} {dets : List Det} {out : List (Box × ℕ)}
    {st' : SortState} {c' : ℕ}
    (hInv : RegInv c st.trackers)
    (h : SortTracker.update K solver c st dets = .ok (out, st', c')) :
    List.Pairwise (fun a b => a.id ≠ b.id) st'.trackers ∧
    RegInv c' st'.trackers ∧ c ≤ c' ∧
    ∀ t' ∈ st'.trackers, t'.id ∉ idsOf st.trackers →
      (∀ t ∈ st.trackers, t.id < t'.id) ∧ c ≤ t'.id ∧ t'.id < c' := by
  obtain ⟨hcc, hInv', hmem, _⟩ := update_ids_master h hInv
  refine ⟨?_, hInv', hcc, ?_⟩
  · have hp := hInv'.1
    rw [idsOf, List.pairwise_map] at hp
    exact hp.imp (fun hab => ne_of_lt hab)
  · intro t' ht' hnot
    have hmm : t'.id ∈ idsOf st'.trackers := List.mem_map_of_mem _ ht'
    rcases hmem _ hmm with hin | ⟨h1, h2⟩
    · exact absurd hin hnot
    · exact ⟨fun t ht => lt_of_lt_of_le (hInv.2 t ht) h1, h1, h2⟩

theorem C1_track_ids_witness :
    List.Pairwise (fun a b => a.id ≠ b.id) st1.trackers ∧
    RegInv 1 st1.trackers ∧ 0 ≤ 1 ∧
    ∀ t' ∈ st1.trackers, t'.id ∉ idsOf (initState 30 3 (3 / 10)).trackers →
      (∀ t ∈ (initState 30 3 (3 / 10)).trackers, t.id < t'.id) ∧
        0 ≤ t'.id ∧ t'.id < 1 :=
  C1_track_ids (by constructor <;> simp [initState, idsOf]) updA1

/-- Over any number of further frames, an id that sits below the counter
and is not live never appears in any output (as `id + 1`) and never
becomes live again. -/
theorem runFrames_no_reuse (K : Vec4 → Vec7)
    (solver : List (List ℚ) → List (ℕ × ℕ)) (detss : List (List Det)) :
    ∀ (c : ℕ) (st : SortState) (id0 : ℕ) (outs : List (List (Box × ℕ)))
      (st' : SortState) (c' : ℕ),
      RegInv c st.trackers → id0 < c → id0 ∉ idsOf st.trackers →
      runFrames K solver c st detss = .ok (outs, st', c') →
      (∀ o ∈ outs, ∀ row ∈ o, row.2 ≠ id0 + 1) ∧
      RegInv c' st'.trackers ∧ c ≤ c' ∧ id0 < c' ∧ id0 ∉ idsOf st'.trackers := by
  induction detss with
  | nil =>
    intro c st id0 outs st' c' hInv hlt hnot h
    simp only [runFrames, pure, Except.pure, Except.ok.injEq,
      Prod.mk.injEq] at h
    obtain ⟨h1, h2, h3⟩ := h
    subst h1
    subst h2
    subst h3
    exact ⟨by simp, hInv, le_refl c, hlt, hnot⟩
  | cons d ds ih =>
    intro c st id0 outs st' c' hInv hlt hnot h
    cases hU : SortTracker.update K solver c st d with
    | error e =>
      rw [runFrames, hU] at h
      simp [bind, Except.bind] at h
    | ok p =>
      obtain ⟨out, st1, c1⟩ := p
      rw [runFrames, hU] at h
      simp only [bind, Except.bind] at h
      cases hR : runFrames K solver c1 st1 ds with
      | error e =>
        rw [hR] at h
        simp at h
      | ok q =>
        obtain ⟨outs2, st2, c2⟩ := q
        rw [hR] at h
        simp only [pure, Except.pure, Except.ok.injEq, Prod.mk.injEq] at h
        obtain ⟨h1, h2, h3⟩ := h
        subst h1
        subst h2
        subst h3
        obtain ⟨hcc, hInv1, hmem1, hrows⟩ := update_ids_master hU hInv
        have hlt1 : id0 < c1 := lt_of_lt_of_le hlt hcc
        have hnot1 : id0 ∉ idsOf st1.trackers := by
          intro hmm
          rcases hmem1 _ hmm with hin | ⟨hge, _⟩
          · exact hnot hin
          · omega
        obtain ⟨hOuts, hInvF, hccF, hltF, hnotF⟩ :=
          ih c1 st1 id0 outs2 _ _ hInv1 hlt1 hnot1 hR
        refine ⟨?_, hInvF, le_trans hcc hccF, hltF, hnotF⟩
        intro o ho row hrow
        rcases List.mem_cons.mp ho with ho1 | ho2
        · subst ho1
          obtain ⟨i, hi1, hi2⟩ := hrows row hrow
          intro hbad
          have : i = id0 := by omega
          subst this
          rcases hi2 with hin | ⟨hge, _⟩
          · exact hnot hin
          · omega
        · exact hOuts o ho2 row hrow

/-- The detection `[100, 100, 104, 102]` with score 1: same shape as
`detA` but disjoint from it. -/
def detB : Det :=
  ⟨100, 100, 104, 102, 1⟩

/-- The tracker registry used for the C3 run: `max_age 5`, `min_hits 1`.
Frame 1 of `[detA]`: track created and reported (bootstrap). -/
theorem c3f1 :
    SortTracker.update gain0 greedySolver 0 (initState 5 1 (3 / 10)) [detA]
      = .ok ([(⟨0, 0, 4, 2⟩, 1)], ⟨5, 1, 3 / 10, [track0], 1⟩, 1) := by
  simp [SortTracker.update, liveListE, associate, predBoxes, predictPairs,
    keptTracks, createFold, applyMatched, reportRows, pruneOld, initState,
    detA, createTracker, convert_bbox_to_z, stateBox_A, bind, Except.bind,
    pure, Except.pure, List.range_succ, List.getD, track0]
  norm_num [stateBox_A]

/-- Frame 2 `[detA]` again: predicted box coincides, IoU 1, match kept,
track updated (`hit_streak 1`), reported. -/
theorem c3f2 :
    SortTracker.update gain0 greedySolver 1 ⟨5, 1, 3 / 10, [track0], 1⟩ [detA]
      = .ok ([(⟨0, 0, 4, 2⟩, 1)],
             ⟨5, 1, 3 / 10, [⟨⟨2, 1, 8, 2, 0, 0, 0⟩, 0, 0, [], 1, 1, 1⟩], 2⟩,
             1) := by
  norm_num [SortTracker.update, liveListE, associate, predBoxes, predictPairs,
    keptTracks, trackPredict, kfPredict, predNan, rowInvalid, createFold,
    applyMatched, updAt, trackUpdate, kfUpdateMean, addV7, subV4, hMeas,
    gain0, zero7, reportRows, pruneOld, track0, costMatrix, proposedPairs,
    iouEntry, iouTotal, iou, detBox, detA, greedySolver, greedyLoop,
    greedyPick, colIdx, gateSplit, bind, Except.bind, pure, Except.pure,
    List.range_succ, List.getD, dummyDet, dummyBox, List.filterMap_cons,
    List.filterMap_nil, List.foldl_cons, List.foldl_nil, convert_bbox_to_z,
    stateBox_A]

/-- Frame 3 `[detB]` (disjoint): the confirmed track misses (IoU 0 below
the gate), a new tentative track is created from `detB`, and the output is
empty — the coasting confirmed track is not reported although its
`time_since_update` is 1 ≤ `max_age` 5. -/
theorem c3f3 :
    SortTracker.update gain0 greedySolver 1
        ⟨5, 1, 3 / 10, [⟨⟨2, 1, 8, 2, 0, 0, 0⟩, 0, 0, [], 1, 1, 1⟩], 2⟩ [detB]
      = .ok ([],
             ⟨5, 1, 3 / 10,
              [⟨⟨2, 1, 8, 2, 0, 0, 0⟩, 1, 0, [⟨0, 0, 4, 2⟩], 1, 1, 2⟩,
               ⟨⟨102, 101, 8, 2, 0, 0, 0⟩, 0, 1, [], 0, 0, 0⟩], 3⟩,
             2) := by
  norm_num [SortTracker.update, liveListE, associate, predBoxes, predictPairs,
    keptTracks, trackPredict, kfPredict, predNan, rowInvalid, createFold,
    applyMatched, updAt, trackUpdate, kfUpdateMean, addV7, subV4, hMeas,
    gain0, zero7, reportRows, pruneOld, createTracker, costMatrix,
    proposedPairs, iouEntry, iouTotal, iou, detBox, detA, detB, greedySolver,
    greedyLoop, greedyPick, colIdx, gateSplit, bind, Except.bind, pure,
    Except.pure, List.range_succ, List.getD, dummyDet, dummyBox,
    List.filterMap_cons, List.filterMap_nil, List.foldl_cons, List.foldl_nil,
    convert_bbox_to_z, stateBox_A]

/-- C3 counterexample: `max_age 5`, `min_hits 1`; a track confirmed in
frames 1-2 stops receiving matching detections in frame 3 (the frame-3
detection is disjoint and becomes a new tentative track).  The claim says
the confirmed track "is still reported for up to max_age frames while
prediction continues"; in fact frame 3's output is already empty, even
though the track is retained (live, `time_since_update = 1 ≤ max_age`)
and its prediction continues. -/
theorem C3_counterexample :
    runFrames gain0 greedySolver 0 (initState 5 1 (3 / 10))
        [[detA], [detA], [detB]]
      = .ok ([[(⟨0, 0, 4, 2⟩, 1)], [(⟨0, 0, 4, 2⟩, 1)], []],
             ⟨5, 1, 3 / 10,
              [⟨⟨2, 1, 8, 2, 0, 0, 0⟩, 1, 0, [⟨0, 0, 4, 2⟩], 1, 1, 2⟩,
               ⟨⟨102, 101, 8, 2, 0, 0, 0⟩, 0, 1, [], 0, 0, 0⟩], 3⟩,
             2) ∧
    ((⟨⟨2, 1, 8, 2, 0, 0, 0⟩, 1, 0, [⟨0, 0, 4, 2⟩], 1, 1, 2⟩ : Track).id = 0 ∧
     (⟨⟨2, 1, 8, 2, 0, 0, 0⟩, 1, 0, [⟨0, 0, 4, 2⟩], 1, 1, 2⟩ : Track).time_since_update
       = 1) ∧
    ∀ row ∈ ([] : List (Box × ℕ)), row.2 ≠ 0 + 1 := by
  refine ⟨?_, ⟨rfl, rfl⟩, by simp⟩
  simp [runFrames, c3f1, c3f2, c3f3, bind, Except.bind, pure, Except.pure]

/-- C3 (amended): a confirmed track that stops receiving matching
detections is retained and predicted while `time_since_update ≤ max_age`,
but — contrary to the claim — it is not reported on any coasting frame
(reporting requires `time_since_update < 1`, i.e. a match in that very
frame); it is removed on the frame `time_since_update` exceeds `max_age`,
and its id (plus one) never appears in any later output. -/
theorem C3_expiry_amended :
    (∀ (l : List Track) (fc mh : ℕ) (row : Box × ℕ),
        row ∈ reportRows l fc mh →
        ∃ t ∈ l, row = (stateBox t.x, t.id + 1) ∧ t.time_since_update < 1) ∧
    (∀ (K : Vec4 → Vec7) (solver : List (List ℚ) → List (ℕ × ℕ))
        (c : ℕ) (st : SortState) (dets : List Det)
        (out : List (Box × ℕ)) (st' : SortState) (c' : ℕ),
        SortTracker.update K solver c st dets = .ok (out, st', c') →
        ∃ l, liveListE K solver c st dets = .ok (l, c') ∧
          st'.trackers
            = l.filter (fun t => decide (t.time_since_update ≤ st.max_age))) ∧
    (∀ (K : Vec4 → Vec7) (solver : List (List ℚ) → List (ℕ × ℕ))
        (detss : List (List Det)) (c : ℕ) (st : SortState) (id0 : ℕ)
        (outs : List (List (Box × ℕ))) (st' : SortState) (c' : ℕ),
        RegInv c st.trackers → id0 < c → id0 ∉ idsOf st.trackers →
        runFrames K solver c st detss = .ok (outs, st', c') →
        ∀ o ∈ outs, ∀ row ∈ o, row.2 ≠ id0 + 1) := by
  refine ⟨?_, ?_, ?_⟩
  · intro l fc mh row hrow
    obtain ⟨t, ht, h1, _, h3⟩ := (mem_reportRows l fc mh row).mp hrow
    exact ⟨t, ht, h3, h1⟩
  · intro K solver c st dets out st' c' h
    obtain ⟨l, hl, _, hst'⟩ := update_parts h
    refine ⟨l, hl, ?_⟩
    rw [hst']
    rfl
  · intro K solver detss c st id0 outs st' c' hInv hlt hnot h
    exact (runFrames_no_reuse K solver detss c st id0 outs st' c'
      hInv hlt hnot h).1

theorem updA1c5 :
    SortTracker.update gain0 greedySolver 5 (initState 30 3 (3 / 10)) [detA]
      = .ok ([(⟨0, 0, 4, 2⟩, 6)],
             ⟨30, 3, 3 / 10, [⟨⟨2, 1, 8, 2, 0, 0, 0⟩, 0, 5, [], 0, 0, 0⟩], 1⟩,
             6) := by
  simp [SortTracker.update, liveListE, associate, predBoxes, predictPairs,
    keptTracks, createFold, applyMatched, reportRows, pruneOld, initState,
    detA, createTracker, convert_bbox_to_z, stateBox_A, bind, Except.bind,
    pure, Except.pure, List.range_succ, List.getD]
  norm_num [stateBox_A]

theorem runA1c5 :
    runFrames gain0 greedySolver 5 (initState 30 3 (3 / 10)) [[detA]]
      = .ok ([[(⟨0, 0, 4, 2⟩, 6)]],
             ⟨30, 3, 3 / 10, [⟨⟨2, 1, 8, 2, 0, 0, 0⟩, 0, 5, [], 0, 0, 0⟩], 1⟩,
             6) := by
  simp [runFrames, updA1c5, bind, Except.bind, pure, Except.pure]

theorem C3_expiry_amended_witness :
    (∃ t ∈ [(⟨⟨2, 1, 8, 2, 0, 0, 0⟩, 0, 0, [], 1, 1, 1⟩ : Track)],
        ((⟨0, 0, 4, 2⟩ : Box), 1) = (stateBox (Track.x t), Track.id t + 1) ∧
        Track.time_since_update t < 1) ∧
    (∃ l, liveListE gain0 greedySolver 0 (initState 30 3 (3 / 10)) [detA]
        = .ok (l, 1) ∧
      st1.trackers = l.filter (fun t => decide (t.time_since_update ≤ 30))) ∧
    ∀ o ∈ [[((⟨0, 0, 4, 2⟩ : Box), 6)]], ∀ row ∈ o, (row.2 : ℕ) ≠ 3 + 1 := by
  refine ⟨?_, ?_, ?_⟩
  · exact C3_expiry_amended.1
      [(⟨⟨2, 1, 8, 2, 0, 0, 0⟩, 0, 0, [], 1, 1, 1⟩ : Track)] 2 1
      (⟨0, 0, 4, 2⟩, 1)
      (by rw [mem_reportRows]
          exact ⟨⟨⟨2, 1, 8, 2, 0, 0, 0⟩, 0, 0, [], 1, 1, 1⟩, by simp,
            by simp, Or.inl (by simp),
            by rw [show Track.x ⟨⟨2, 1, 8, 2, 0, 0, 0⟩, 0, 0, [], 1, 1, 1⟩
                     = ⟨2, 1, 8, 2, 0, 0, 0⟩ from rfl, stateBox_A]⟩)
  · exact C3_expiry_amended.2.1 gain0 greedySolver 0
      (initState 30 3 (3 / 10)) [detA] [(⟨0, 0, 4, 2⟩, 1)] st1 1 updA1
  · intro o ho row hrow
    exact C3_expiry_amended.2.2 gain0 greedySolver [[detA]] 5
      (initState 30 3 (3 / 10)) 3 [[(⟨0, 0, 4, 2⟩, 6)]]
      ⟨30, 3, 3 / 10, [⟨⟨2, 1, 8, 2, 0, 0, 0⟩, 0, 5, [], 0, 0, 0⟩], 1⟩ 6
      (by constructor <;> simp [initState, idsOf]) (by norm_num)
      (by simp [initState, idsOf]) runA1c5 o ho row hrow

/-- Interleaved execution of two `Sort` instances that share the
class-level counter `KalmanBoxTracker.count`: each schedule entry names
the instance to step (`true` = A, `false` = B) and that frame's
detections. -/
def runTwo (K : Vec4 → Vec7) (solver : List (List ℚ) → List (ℕ × ℕ)) :
    ℕ → SortState × SortState → List (Bool × List Det) →
    Except String (List (List (Box × ℕ)) × List (List (Box × ℕ)) ×
      SortState × SortState × ℕ)
  | c, (sa, sb), [] => pure ([], [], sa, sb, c)
  | c, (sa, sb), (side, dets) :: rest =>
    if side then do
      let (out, sa', c') ← SortTracker.update K solver c sa dets
      let (oa, ob, sa'', sb', c'') ← runTwo K solver c' (sa', sb) rest
      pure (out :: oa, ob, sa'', sb', c'')
    else do
      let (out, sb', c') ← SortTracker.update K solver c sb dets
      let (oa, ob, sa', sb'', c'') ← runTwo K solver c' (sa, sb') rest
      pure (oa, out :: ob, sa', sb'', c'')

/-- The frames one instance receives from a schedule. -/
def projDets (side : Bool) (sched : List (Bool × List Det)) : List (List Det) :=
  sched.filterMap (fun p => if p.1 = side then some p.2 else none)

/-- Equality of all track data except the id. -/
def TrackEq (t u : Track) : Prop :=
  t.x = u.x ∧ t.time_since_update = u.time_since_update ∧
  t.history = u.history ∧ t.hits = u.hits ∧
  t.hit_streak = u.hit_streak ∧ t.age = u.age

def TracksEq (l l' : List Track) : Prop :=
  List.Forall₂ TrackEq l l'

/-- Equality of registry states up to track ids. -/
def StEq (s s' : SortState) : Prop :=
  s.max_age = s'.max_age ∧ s.min_hits = s'.min_hits ∧
  s.iou_threshold = s'.iou_threshold ∧ s.frame_count = s'.frame_count ∧
  TracksEq s.trackers s'.trackers

theorem trackEq_refl (t : Track) : TrackEq t t :=
  ⟨rfl, rfl, rfl, rfl, rfl, rfl⟩

theorem tracksEq_refl (l : List Track) : TracksEq l l := by
  induction l with
  | nil => exact List.Forall₂.nil
  | cons t ts ih => exact List.Forall₂.cons (trackEq_refl t) ih

theorem stEq_refl (s : SortState) : StEq s s :=
  ⟨rfl, rfl, rfl, rfl, tracksEq_refl _⟩

theorem tracksEq_append {l1 l2 l3 l4 : List Track}
    (h : TracksEq l1 l2) (h' : TracksEq l3 l4) :
    TracksEq (l1 ++ l3) (l2 ++ l4) := by
  induction h with
  | nil => exact h'
  | cons hab _ ih => exact List.Forall₂.cons hab ih

theorem trackPredict_congr {t u : Track} (h : TrackEq t u) :
    (trackPredict t).1 = (trackPredict u).1 ∧
    TrackEq (trackPredict t).2 (trackPredict u).2 := by
  obtain ⟨h1, h2, h3, h4, h5, h6⟩ := h
  constructor
  · simp [trackPredict, h1]
  · exact ⟨by simp [trackPredict, h1], by simp [trackPredict, h2],
      by simp [trackPredict, h1, h3], by simp [trackPredict, h4],
      by simp [trackPredict, h2, h5], by simp [trackPredict, h6]⟩

theorem keptTracks_congr : ∀ {l l' : List Track}, TracksEq l l' →
    TracksEq (keptTracks l) (keptTracks l') := by
  intro l l' h
  induction h with
  | nil => exact List.Forall₂.nil
  | @cons a b as bs hab htail ih =>
    have hp := trackPredict_congr hab
    have hx : ((trackPredict a).2).x = ((trackPredict b).2).x := hp.2.1
    have e1 : keptTracks (a :: as)
        = if predNan ((trackPredict a).2).x then keptTracks as
          else (trackPredict a).2 :: keptTracks as := by
      cases hc : predNan ((trackPredict a).2).x <;>
        simp [keptTracks, predictPairs, hc]
    have e2 : keptTracks (b :: bs)
        = if predNan ((trackPredict b).2).x then keptTracks bs
          else (trackPredict b).2 :: keptTracks bs := by
      cases hc : predNan ((trackPredict b).2).x <;>
        simp [keptTracks, predictPairs, hc]
    rw [e1, e2, hx]
    cases hc : predNan ((trackPredict b).2).x
    · simp only [Bool.false_eq_true, if_false]
      exact List.Forall₂.cons hp.2 ih
    · simp only [if_true]
      exact ih

theorem predBoxes_congr : ∀ {l l' : List Track}, TracksEq l l' →
    predBoxes l = predBoxes l' := by
  intro l l' h
  induction h with
  | nil => rfl
  | @cons a b as bs hab htail ih =>
    have hp := trackPredict_congr hab
    have hx : ((trackPredict a).2).x = ((trackPredict b).2).x := hp.2.1
    have e1 : predBoxes (a :: as)
        = if rowInvalid ((trackPredict a).2).x then predBoxes as
          else (trackPredict a).1 :: predBoxes as := by
      cases hc : rowInvalid ((trackPredict a).2).x <;>
        simp [predBoxes, predictPairs, hc]
    have e2 : predBoxes (b :: bs)
        = if rowInvalid ((trackPredict b).2).x then predBoxes bs
          else (trackPredict b).1 :: predBoxes bs := by
      cases hc : rowInvalid ((trackPredict b).2).x <;>
        simp [predBoxes, predictPairs, hc]
    rw [e1, e2, hx, hp.1, ih]

theorem trackUpdate_congr (K : Vec4 → Vec7) (d : Det) {t u : Track}
    (h : TrackEq t u) : TrackEq (trackUpdate K t d) (trackUpdate K u d) := by
  obtain ⟨h1, h2, h3, h4, h5, h6⟩ := h
  exact ⟨by simp [trackUpdate, h1], rfl, rfl, by simp [trackUpdate, h4],
    by simp [trackUpdate, h5], by simp [trackUpdate, h6]⟩

theorem updAt_congr (f : Track → Track)
    (hf : ∀ t u, TrackEq t u → TrackEq (f t) (f u)) :
    ∀ {l l' : List Track}, TracksEq l l' → ∀ (i : ℕ),
      TracksEq (updAt l i f) (updAt l' i f) := by
  intro l l' h
  induction h with
  | nil => intro i; exact List.Forall₂.nil
  | cons hab htail ih =>
    intro i
    cases i with
    | zero => exact List.Forall₂.cons (hf _ _ hab) htail
    | succ n => exact List.Forall₂.cons hab (ih n)

theorem applyMatched_congr (K : Vec4 → Vec7) (dets : List Det) :
    ∀ (ms : List (ℕ × ℕ)) {l l' : List Track}, TracksEq l l' →
      TracksEq (applyMatched K dets ms l) (applyMatched K dets ms l') := by
  intro ms
  induction ms with
  | nil => intro l l' h; exact h
  | cons m rest ih =>
    intro l l' h
    show TracksEq
      (applyMatched K dets rest
        (updAt l m.2 (fun t => trackUpdate K t (dets.getD m.1 dummyDet))))
      (applyMatched K dets rest
        (updAt l' m.2 (fun t => trackUpdate K t (dets.getD m.1 dummyDet))))
    exact ih (updAt_congr _ (fun t u ht => trackUpdate_congr _ _ ht) h m.2)

theorem createFold_congr (dets : List Det) :
    ∀ (ud : List ℕ) {l l' : List Track} (c c'' : ℕ), TracksEq l l' →
      TracksEq (createFold dets ud (l, c)).1 (createFold dets ud (l', c'')).1 := by
  intro ud
  induction ud with
  | nil => intro l l' c c'' h; exact h
  | cons i rest ih =>
    intro l l' c c'' h
    show TracksEq
      (createFold dets rest (l ++ [createTracker c (dets.getD i dummyDet)], c + 1)).1
      (createFold dets rest (l' ++ [createTracker c'' (dets.getD i dummyDet)], c'' + 1)).1
    exact ih _ _ (tracksEq_append h
      (List.Forall₂.cons ⟨rfl, rfl, rfl, rfl, rfl, rfl⟩ List.Forall₂.nil))

theorem reportRows_congr (fc mh : ℕ) : ∀ {l l' : List Track}, TracksEq l l' →
    (reportRows l fc mh).map Prod.fst = (reportRows l' fc mh).map Prod.fst := by
  intro l l' h
  induction h with
  | nil => rfl
  | @cons a b as bs hab htail ih =>
    obtain ⟨hx, h2, _, _, h5, _⟩ := hab
    by_cases hc : b.time_since_update < 1 ∧ (mh ≤ b.hit_streak ∨ fc ≤ mh)
    · have hca : a.time_since_update < 1 ∧ (mh ≤ a.hit_streak ∨ fc ≤ mh) := by
        rw [h2, h5]
        exact hc
      have ea : reportRows (a :: as) fc mh
          = (stateBox a.x, a.id + 1) :: reportRows as fc mh := by
        simp only [reportRows, List.filterMap_cons]
        rw [if_pos hca]
      have eb : reportRows (b :: bs) fc mh
          = (stateBox b.x, b.id + 1) :: reportRows bs fc mh := by
        simp only [reportRows, List.filterMap_cons]
        rw [if_pos hc]
      rw [ea, eb, List.map_cons, List.map_cons, ih]
      simp [hx]
    · have hca : ¬(a.time_since_update < 1 ∧ (mh ≤ a.hit_streak ∨ fc ≤ mh)) := by
        rw [h2, h5]
        exact hc
      have ea : reportRows (a :: as) fc mh = reportRows as fc mh := by
        simp only [reportRows, List.filterMap_cons]
        rw [if_neg hca]
      have eb : reportRows (b :: bs) fc mh = reportRows bs fc mh := by
        simp only [reportRows, List.filterMap_cons]
        rw [if_neg hc]
      rw [ea, eb, ih]

theorem pruneOld_congr (ma : ℕ) : ∀ {l l' : List Track}, TracksEq l l' →
    TracksEq (pruneOld ma l) (pruneOld ma l') := by
  intro l l' h
  induction h with
  | nil => exact List.Forall₂.nil
  | @cons a b as bs hab htail ih =>
    have h2 := hab.2.1
    by_cases hc : b.time_since_update ≤ ma
    · have hca : a.time_since_update ≤ ma := by rw [h2]; exact hc
      have ea : pruneOld ma (a :: as) = a :: pruneOld ma as := by
        simp [pruneOld, List.filter_cons, hca]
      have eb : pruneOld ma (b :: bs) = b :: pruneOld ma bs := by
        simp [pruneOld, List.filter_cons, hc]
      rw [ea, eb]
      exact List.Forall₂.cons hab ih
    · have hca : ¬a.time_since_update ≤ ma := by rw [h2]; exact hc
      have ea : pruneOld ma (a :: as) = pruneOld ma as := by
        simp [pruneOld, List.filter_cons, hca]
      have eb : pruneOld ma (b :: bs) = pruneOld ma bs := by
        simp [pruneOld, List.filter_cons, hc]
      rw [ea, eb]
      exact ih

/-- One `Sort.update` step simulates across id-equivalent states (the
shared counters may differ arbitrarily): both calls fail with the same
error or both succeed, with outputs equal after erasing the id column and
id-equivalent successor states. -/
theorem update_congr (K : Vec4 → Vec7) (solver : List (List ℚ) → List (ℕ × ℕ))
    (dets : List Det) (c1 c2 : ℕ) {s1 s2 : SortState} (h : StEq s1 s2) :
    (∃ e, SortTracker.update K solver c1 s1 dets = .error e ∧
          SortTracker.update K solver c2 s2 dets = .error e) ∨
    (∃ o1 s1' c1' o2 s2' c2',
      SortTracker.update K solver c1 s1 dets = .ok (o1, s1', c1') ∧
      SortTracker.update K solver c2 s2 dets = .ok (o2, s2', c2') ∧
      o1.map Prod.fst = o2.map Prod.fst ∧ StEq s1' s2') := by
  obtain ⟨hma, hmh, hthr, hfc, htr⟩ := h
  have hpb : predBoxes s1.trackers = predBoxes s2.trackers :=
    predBoxes_congr htr
  cases hA : associate solver s1.iou_threshold dets (predBoxes s1.trackers) with
  | error e =>
    left
    have hA2 : associate solver s2.iou_threshold dets (predBoxes s2.trackers)
        = .error e := by
      rw [← hthr, ← hpb]
      exact hA
    have hL1 : liveListE K solver c1 s1 dets = .error e := by
      rw [liveListE, hA]
      rfl
    have hL2 : liveListE K solver c2 s2 dets = .error e := by
      rw [liveListE, hA2]
      rfl
    refine ⟨e, ?_, ?_⟩
    · rw [SortTracker.update, hL1]
      rfl
    · rw [SortTracker.update, hL2]
      rfl
  | ok p =>
    obtain ⟨m, ud, ut⟩ := p
    right
    have hA2 : associate solver s2.iou_threshold dets (predBoxes s2.trackers)
        = .ok (m, ud, ut) := by
      rw [← hthr, ← hpb]
      exact hA
    have hL1 : liveListE K solver c1 s1 dets
        = .ok (createFold dets ud
            (applyMatched K dets m (keptTracks s1.trackers), c1)) := by
      rw [liveListE, hA]
      rfl
    have hL2 : liveListE K solver c2 s2 dets
        = .ok (createFold dets ud
            (applyMatched K dets m (keptTracks s2.trackers), c2)) := by
      rw [liveListE, hA2]
      rfl
    have hLeq : TracksEq
        (createFold dets ud (applyMatched K dets m (keptTracks s1.trackers), c1)).1
        (createFold dets ud (applyMatched K dets m (keptTracks s2.trackers), c2)).1 :=
      createFold_congr dets ud c1 c2
        (applyMatched_congr K dets m (keptTracks_congr htr))
    have hU1 : SortTracker.update K solver c1 s1 dets
        = .ok (reportRows
            (createFold dets ud (applyMatched K dets m (keptTracks s1.trackers), c1)).1
            (s1.frame_count + 1) s1.min_hits,
          { s1 with
            trackers := pruneOld s1.max_age
              (createFold dets ud (applyMatched K dets m (keptTracks s1.trackers), c1)).1
            frame_count := s1.frame_count + 1 },
          (createFold dets ud (applyMatched K dets m (keptTracks s1.trackers), c1)).2) := by
      rw [SortTracker.update, hL1]
      rfl
    have hU2 : SortTracker.update K solver c2 s2 dets
        = .ok (reportRows
            (createFold dets ud (applyMatched K dets m (keptTracks s2.trackers), c2)).1
            (s2.frame_count + 1) s2.min_hits,
          { s2 with
            trackers := pruneOld s2.max_age
              (createFold dets ud (applyMatched K dets m (keptTracks s2.trackers), c2)).1
            frame_count := s2.frame_count + 1 },
          (createFold dets ud (applyMatched K dets m (keptTracks s2.trackers), c2)).2) := by
      rw [SortTracker.update, hL2]
      rfl
    refine ⟨_, _, _, _, _, _, hU1, hU2, ?_, ?_⟩
    · rw [hfc, hmh]
      exact reportRows_congr _ _ hLeq
    · refine ⟨hma, hmh, hthr, by simp [hfc], ?_⟩
      show TracksEq (pruneOld s1.max_age _) (pruneOld s2.max_age _)
      rw [hma]
      exact pruneOld_congr _ hLeq

/-- Projection/simulation for interleaved runs: from a successful
interleaved execution, each instance's solo run — started from any
counter value and an id-equivalent initial state, on its projected
frames — succeeds with outputs equal up to the id column. -/
theorem runTwo_proj (K : Vec4 → Vec7) (solver : List (List ℚ) → List (ℕ × ℕ)) :
    ∀ (sched : List (Bool × List Det)) (c : ℕ) (sa sb : SortState)
      (oa ob : List (List (Box × ℕ))) (sa₂ sb₂ : SortState) (c₂ : ℕ)
      (ca cb : ℕ) (saS sbS : SortState),
      runTwo K solver c (sa, sb) sched = .ok (oa, ob, sa₂, sb₂, c₂) →
      StEq sa saS → StEq sb sbS →
      (∃ os stS cS,
        runFrames K solver ca saS (projDets true sched) = .ok (os, stS, cS) ∧
        oa.map (List.map Prod.fst) = os.map (List.map Prod.fst) ∧
        StEq sa₂ stS) ∧
      (∃ os stS cS,
        runFrames K solver cb sbS (projDets false sched) = .ok (os, stS, cS) ∧
        ob.map (List.map Prod.fst) = os.map (List.map Prod.fst) ∧
        StEq sb₂ stS) := by
  intro sched
  induction sched with
  | nil =>
    intro c sa sb oa ob sa₂ sb₂ c₂ ca cb saS sbS h hsa hsb
    simp only [runTwo, pure, Except.pure, Except.ok.injEq, Prod.mk.injEq] at h
    obtain ⟨h1, h2, h3, h4, h5⟩ := h
    subst h1
    subst h2
    subst h3
    subst h4
    subst h5
    exact ⟨⟨[], saS, ca, rfl, rfl, hsa⟩, ⟨[], sbS, cb, rfl, rfl, hsb⟩⟩
  | cons p rest ih =>
    obtain ⟨side, dets⟩ := p
    intro c sa sb oa ob sa₂ sb₂ c₂ ca cb saS sbS h hsa hsb
    cases side
    · -- side = false : instance B steps
      rw [runTwo] at h
      simp only [Bool.false_eq_true, if_false, bind, Except.bind] at h
      cases hU : SortTracker.update K solver c sb dets with
      | error e =>
        rw [hU] at h
        simp at h
      | ok q =>
        obtain ⟨out, sb', c'⟩ := q
        rw [hU] at h
        dsimp only at h
        cases hR : runTwo K solver c' (sa, sb') rest with
        | error e =>
          rw [hR] at h
          simp at h
        | ok r =>
          obtain ⟨oa', ob', sa'', sb'', c''⟩ := r
          rw [hR] at h
          simp only [pure, Except.pure, Except.ok.injEq, Prod.mk.injEq] at h
          obtain ⟨h1, h2, h3, h4, h5⟩ := h
          subst h1
          subst h2
          subst h3
          subst h4
          subst h5
          rcases update_congr K solver dets c cb hsb with
            ⟨e, he1, _⟩ | ⟨o1, t1, d1, o2, t2, d2, ho1, ho2, hmap, hst⟩
          · rw [he1] at hU
            cases hU
          · rw [hU] at ho1
            simp only [Except.ok.injEq, Prod.mk.injEq] at ho1
            obtain ⟨e1, e2, e3⟩ := ho1
            subst e1
            subst e2
            subst e3
            obtain ⟨HA, HB⟩ :=
              ih c' sa sb' oa' ob' sa'' sb'' c'' ca d2 saS t2 hR hsa hst
            constructor
            · simpa [projDets] using HA
            · obtain ⟨os, stS, cS, hrun, hmapR, hstF⟩ := HB
              refine ⟨o2 :: os, stS, cS, ?_, ?_, hstF⟩
              · have hpj : projDets false ((false, dets) :: rest)
                    = dets :: projDets false rest := by
                  simp [projDets]
                rw [hpj, runFrames, ho2]
                simp [bind, Except.bind, hrun, pure, Except.pure]
              · simp only [List.map_cons, hmap, hmapR]
    · -- side = true : instance A steps
      rw [runTwo] at h
      simp only [if_true, bind, Except.bind] at h
      cases hU : SortTracker.update K solver c sa dets with
      | error e =>
        rw [hU] at h
        simp at h
      | ok q =>
        obtain ⟨out, sa', c'⟩ := q
        rw [hU] at h
        dsimp only at h
        cases hR : runTwo K solver c' (sa', sb) rest with
        | error e =>
          rw [hR] at h
          simp at h
        | ok r =>
          obtain ⟨oa', ob', sa'', sb'', c''⟩ := r
          rw [hR] at h
          simp only [pure, Except.pure, Except.ok.injEq, Prod.mk.injEq] at h
          obtain ⟨h1, h2, h3, h4, h5⟩ := h
          subst h1
          subst h2
          subst h3
          subst h4
          subst h5
          rcases update_congr K solver dets c ca hsa with
            ⟨e, he1, _⟩ | ⟨o1, t1, d1, o2, t2, d2, ho1, ho2, hmap, hst⟩
          · rw [he1] at hU
            cases hU
          · rw [hU] at ho1
            simp only [Except.ok.injEq, Prod.mk.injEq] at ho1
            obtain ⟨e1, e2, e3⟩ := ho1
            subst e1
            subst e2
            subst e3
            obtain ⟨HA, HB⟩ :=
              ih c' sa' sb oa' ob' sa'' sb'' c'' d2 cb t2 sbS hR hst hsb
            constructor
            · obtain ⟨os, stS, cS, hrun, hmapR, hstF⟩ := HA
              refine ⟨o2 :: os, stS, cS, ?_, ?_, hstF⟩
              · have hpj : projDets true ((true, dets) :: rest)
                    = dets :: projDets true rest := by
                  simp [projDets]
                rw [hpj, runFrames, ho2]
                simp [bind, Except.bind, hrun, pure, Except.pure]
              · simp only [List.map_cons, hmap, hmapR]
            · simpa [projDets] using HB

/-- C4 (amended): `Sort` instances do share mutable state — the class
counter `KalmanBoxTracker.count` — but it influences only the assigned
ids: for every interleaving of update calls on two instances, each
instance's sequence of outputs equals the one it would produce running
alone on its own detection sequence, after erasing the id column. -/
theorem C4_isolation_amended (K : Vec4 → Vec7)
    (solver : List (List ℚ) → List (ℕ × ℕ)) (c : ℕ) (sa sb : SortState)
    (sched : List (Bool × List Det)) (oa ob : List (List (Box × ℕ)))
    (sa₂ sb₂ : SortState) (c₂ : ℕ)
    (h : runTwo K solver c (sa, sb) sched = .ok (oa, ob, sa₂, sb₂, c₂)) :
    (∃ r, runFrames K solver 0 sa (projDets true sched) = .ok r ∧
      oa.map (List.map Prod.fst) = r.1.map (List.map Prod.fst)) ∧
    (∃ r, runFrames K solver 0 sb (projDets false sched) = .ok r ∧
      ob.map (List.map Prod.fst) = r.1.map (List.map Prod.fst)) := by
  obtain ⟨⟨os1, stS1, cS1, h1, hm1, _⟩, ⟨os2, stS2, cS2, h2, hm2, _⟩⟩ :=
    runTwo_proj K solver sched c sa sb oa ob sa₂ sb₂ c₂ 0 0 sa sb h
      (stEq_refl sa) (stEq_refl sb)
  exact ⟨⟨(os1, stS1, cS1), h1, hm1⟩, ⟨(os2, stS2, cS2), h2, hm2⟩⟩

/-- Instance B's first frame when the shared counter is already at 1: the
new track gets internal id 1, reported as external id 2. -/
theorem updB2 :
    SortTracker.update gain0 greedySolver 1 (initState 5 1 (3 / 10)) [detA]
      = .ok ([(⟨0, 0, 4, 2⟩, 2)],
             ⟨5, 1, 3 / 10, [⟨⟨2, 1, 8, 2, 0, 0, 0⟩, 0, 1, [], 0, 0, 0⟩], 1⟩,
             2) := by
  simp [SortTracker.update, liveListE, associate, predBoxes, predictPairs,
    keptTracks, createFold, applyMatched, reportRows, pruneOld, initState,
    detA, createTracker, convert_bbox_to_z, stateBox_A, bind, Except.bind,
    pure, Except.pure, List.range_succ, List.getD]
  norm_num [stateBox_A]

theorem c4runTwo :
    runTwo gain0 greedySolver 0
        (initState 5 1 (3 / 10), initState 5 1 (3 / 10))
        [(true, [detA]), (false, [detA])]
      = .ok ([[(⟨0, 0, 4, 2⟩, 1)]], [[(⟨0, 0, 4, 2⟩, 2)]],
             ⟨5, 1, 3 / 10, [track0], 1⟩,
             ⟨5, 1, 3 / 10, [⟨⟨2, 1, 8, 2, 0, 0, 0⟩, 0, 1, [], 0, 0, 0⟩], 1⟩,
             2) := by
  simp [runTwo, c3f1, updB2, bind, Except.bind, pure, Except.pure]

theorem c4solo :
    runFrames gain0 greedySolver 0 (initState 5 1 (3 / 10)) [[detA]]
      = .ok ([[(⟨0, 0, 4, 2⟩, 1)]], ⟨5, 1, 3 / 10, [track0], 1⟩, 1) := by
  simp [runFrames, c3f1, bind, Except.bind, pure, Except.pure]

/-- C4 counterexample: two fresh identically-configured instances;
schedule: A is stepped on `[detA]`, then B is stepped on `[detA]`.
Interleaved, B reports its track with external id 2 (the shared
class-level counter `KalmanBoxTracker.count` was already at 1 after A's
creation); running alone on the same detection sequence `[[detA]]`, B
reports id 1.  The output sequences differ, so the claimed two-run
noninterference (and "share no mutable state") fails. -/
theorem C4_counterexample :
    runTwo gain0 greedySolver 0
        (initState 5 1 (3 / 10), initState 5 1 (3 / 10))
        [(true, [detA]), (false, [detA])]
      = .ok ([[(⟨0, 0, 4, 2⟩, 1)]], [[(⟨0, 0, 4, 2⟩, 2)]],
             ⟨5, 1, 3 / 10, [track0], 1⟩,
             ⟨5, 1, 3 / 10, [⟨⟨2, 1, 8, 2, 0, 0, 0⟩, 0, 1, [], 0, 0, 0⟩], 1⟩,
             2) ∧
    projDets false [(true, [detA]), (false, [detA])] = [[detA]] ∧
    runFrames gain0 greedySolver 0 (initState 5 1 (3 / 10)) [[detA]]
      = .ok ([[(⟨0, 0, 4, 2⟩, 1)]], ⟨5, 1, 3 / 10, [track0], 1⟩, 1) ∧
    [[((⟨0, 0, 4, 2⟩ : Box), 2)]] ≠ [[((⟨0, 0, 4, 2⟩ : Box), 1)]] := by
  refine ⟨c4runTwo, by simp [projDets], c4solo, by simp⟩

theorem C4_isolation_amended_witness :
    (∃ r, runFrames gain0 greedySolver 0 (initState 5 1 (3 / 10))
        (projDets true [(true, [detA]), (false, [detA])]) = .ok r ∧
      [[((⟨0, 0, 4, 2⟩ : Box), 1)]].map (List.map Prod.fst)
        = r.1.map (List.map Prod.fst)) ∧
    (∃ r, runFrames gain0 greedySolver 0 (initState 5 1 (3 / 10))
        (projDets false [(true, [detA]), (false, [detA])]) = .ok r ∧
      [[((⟨0, 0, 4, 2⟩ : Box), 2)]].map (List.map Prod.fst)
        = r.1.map (List.map Prod.fst)) :=
  C4_isolation_amended gain0 greedySolver 0 (initState 5 1 (3 / 10))
    (initState 5 1 (3 / 10)) [(true, [detA]), (false, [detA])]
    [[(⟨0, 0, 4, 2⟩, 1)]] [[(⟨0, 0, 4, 2⟩, 2)]]
    ⟨5, 1, 3 / 10, [track0], 1⟩
    ⟨5, 1, 3 / 10, [⟨⟨2, 1, 8, 2, 0, 0, 0⟩, 0, 1, [], 0, 0, 0⟩], 1⟩ 2
    c4runTwo

end MSAI
